import Mathlib

/-!
Shallow embedding of the used-car price inference pipeline (src/app.py):
the value-mapping table, the feature synthesizer, the categorical encoder
adapter with unseen-category fallback, the feature-vector assembler, the
required-field check of the entry point, and the prediction post-processing
(rounding to thousands and the confidence band).

Python scalars (str, int, float) are embedded as `Value`; floats are
rationals with Python-style decimal rendering. Records (Python dicts and
single-row DataFrames) are association lists with dict semantics:
lookup finds the first matching key, assignment replaces in place or appends.
-/

/-- A scalar value of an attribute record: Python str, int or float
(floats modelled as rationals with exact decimal rendering). -/
inductive Value where
  | str (s : String)
  | int (n : Int)
  | flt (q : ℚ)
deriving DecidableEq

/-- An attribute record: feature name to scalar value, dict semantics. -/
abbrev AttributeRecord := List (String × Value)

/-- Python dict lookup: the value at the first matching key. -/
def lookupVal : AttributeRecord → String → Option Value
  | [], _ => none
  | (k, v) :: rest, key => if k = key then some v else lookupVal rest key

/-- Python dict assignment: replace the value at an existing key in place,
otherwise append the new pair at the end. -/
def setVal : AttributeRecord → String → Value → AttributeRecord
  | [], key, v => [(key, v)]
  | (k, w) :: rest, key, v =>
      if k = key then (k, v) :: rest else (k, w) :: setVal rest key v

/-- String-to-string dict lookup (one table of VALUE_MAPPINGS). -/
def lookupStr : List (String × String) → String → Option String
  | [], _ => none
  | (k, v) :: rest, key => if k = key then some v else lookupStr rest key

/-- Python truthiness of a scalar: the empty string, 0 and 0.0 are falsy. -/
def isFalsy : Value → Bool
  | .str s => s == ""
  | .int n => n == 0
  | .flt q => q == 0

/-- Minimal k ≤ 18 with d dividing 10^k (every denominator of a float value
that the pipeline produces divides a power of ten). -/
def minDecExp (d : Nat) : Nat :=
  (((List.range 19).filter (fun k => 10 ^ k % d == 0)).headD 18)

/-- Python str()/repr of a float: exact decimal rendering with at least one
fractional digit, e.g. 2 ↦ "2.0", 8/5 ↦ "1.6". -/
def ratToDecString (q : ℚ) : String :=
  let sign := if q.num < 0 then "-" else ""
  let n := q.num.natAbs
  let d := q.den
  let k := minDecExp d
  let scaled := n * (10 ^ k / d)
  let ip := scaled / 10 ^ k
  let fp := scaled % 10 ^ k
  if k = 0 then sign ++ toString ip ++ ".0"
  else
    let fs := toString fp
    let pad := String.mk (List.replicate (k - fs.length) '0')
    sign ++ toString ip ++ "." ++ pad ++ fs

/-- Python str() of a scalar. -/
def Value.toStr : Value → String
  | .str s => s
  | .int n => toString n
  | .flt q => ratToDecString q

/-- Python str.upper() for the alphabets this app uses: ASCII lowercase and
Cyrillic lowercase (а-я and ё) are uppercased, everything else is kept. -/
def pyUpperChar (c : Char) : Char :=
  if 97 ≤ c.toNat ∧ c.toNat ≤ 122 then Char.ofNat (c.toNat - 32)
  else if 0x430 ≤ c.toNat ∧ c.toNat ≤ 0x44F then Char.ofNat (c.toNat - 32)
  else if c.toNat = 0x451 then Char.ofNat 0x401
  else c

/-- Python s.upper(). -/
def pyUpper (s : String) : String := String.mk (s.toList.map pyUpperChar)

/-- Python s.replace(" ", "_") (single-character replacement). -/
def replaceSpaces (s : String) : String :=
  String.mk (s.toList.map (fun c => if c = ' ' then '_' else c))

/-- Split a maximal leading run of decimal digits from the rest. -/
def takeDigits : List Char → List Char × List Char
  | [] => ([], [])
  | c :: rest =>
      if c.isDigit then
        let p := takeDigits rest
        (c :: p.1, p.2)
      else ([], c :: rest)

/-- re.search of the pattern for one decimal number — one or more digits,
an optional dot, then any digits — returning the leftmost greedy match
(the app's inputs contain only ASCII digits). -/
def scanFirstNum : List Char → Option String
  | [] => none
  | c :: rest =>
      if c.isDigit then
        let d1 := takeDigits (c :: rest)
        match d1.2 with
        | '.' :: rest2 =>
            let d2 := takeDigits rest2
            some (String.mk (d1.1 ++ '.' :: d2.1))
        | _ => some (String.mk d1.1)
      else scanFirstNum rest

/-- Numeric value of a digit run. -/
def digitsVal (cs : List Char) : Nat :=
  cs.foldl (fun a c => a * 10 + (c.toNat - 48)) 0

/-- Python float() on an unsigned body: digits, digits-dot-digits,
digits-dot or dot-digits; anything else fails. (Exponent, inf/nan and
underscore forms never arise from this app's inputs and are not modelled.) -/
def parseDecCore (cs : List Char) : Option ℚ :=
  let ipart := takeDigits cs
  match ipart.2 with
  | [] => if ipart.1.isEmpty then none else some (digitsVal ipart.1 : ℚ)
  | '.' :: rest =>
      let fpart := takeDigits rest
      if ¬ fpart.2.isEmpty then none
      else if ipart.1.isEmpty ∧ fpart.1.isEmpty then none
      else some ((digitsVal ipart.1 : ℚ) + (digitsVal fpart.1 : ℚ) / 10 ^ fpart.1.length)
  | _ => none

/-- Python float(s): strip whitespace, optional sign, decimal body. -/
def parsePyFloat (s : String) : Option ℚ :=
  let cs := ((s.toList.dropWhile Char.isWhitespace).reverse.dropWhile
      Char.isWhitespace).reverse
  match cs with
  | '-' :: rest => (parseDecCore rest).map Neg.neg
  | '+' :: rest => parseDecCore rest
  | _ => parseDecCore cs

/-- The three-tier numeric engine-displacement fallback of
prepare_features_for_model: the first decimal number found in str(value);
failing that, float() of the whole string; failing that, the default 2.0. -/
def engineDisplacementNum (v : Value) : ℚ :=
  match scanFirstNum (Value.toStr v).toList with
  | some numStr =>
      match parsePyFloat numStr with
      | some q => q
      | none => 2
  | none =>
      match parsePyFloat (Value.toStr v) with
      | some q => q
      | none => 2

/-- The vehicleTransmission table of VALUE_MAPPINGS. -/
def transMap : List (String × String) :=
  [("автоматическая", "AUTOMATIC"), ("механическая", "MECHANICAL"),
   ("робот", "ROBOT"), ("вариатор", "VARIATOR")]

/-- The steering-wheel table of VALUE_MAPPINGS. -/
def wheelMap : List (String × String) :=
  [("Левый", "LEFT"), ("Правый", "RIGHT")]

/-- The vehicle-passport table of VALUE_MAPPINGS. -/
def ptsMap : List (String × String) :=
  [("Оригинал", "ORIGINAL"), ("Дубликат", "DUPLICATE")]

/-- The color table of VALUE_MAPPINGS. -/
def colorMap : List (String × String) :=
  [("черный", "040001"), ("белый", "FFFFFF"), ("серебристый", "C0C0C0"),
   ("серый", "808080"), ("синий", "0000FF"), ("красный", "FF0000"),
   ("зеленый", "008000"), ("коричневый", "A52A2A"), ("желтый", "FFFF00"),
   ("оранжевый", "FFA500"), ("фиолетовый", "800080"), ("голубой", "00FFFF"),
   ("розовый", "FFC0CB"), ("бордовый", "800000"), ("бежевый", "F5F5DC"),
   ("золотой", "FFD700"), ("бирюзовый", "40E0D0")]

/-- The VALUE_MAPPINGS table: localized labels to canonical tokens. -/
def VALUE_MAPPINGS : List (String × List (String × String)) :=
  [("vehicleTransmission", transMap),
   ("Руль", wheelMap),
   ("ПТС", ptsMap),
   ("color", colorMap)]

/-- One iteration of the mapping loop: if the field is present and its
value is a key of the mapping table (only a string can equal a string key),
replace the value with the canonical token; otherwise leave the record as is. -/
def applyOneMapping (r : AttributeRecord) (field : String)
    (m : List (String × String)) : AttributeRecord :=
  match lookupVal r field with
  | some (Value.str s) =>
      match lookupStr m s with
      | some t => setVal r field (Value.str t)
      | none => r
  | _ => r

/-- The whole mapping loop over VALUE_MAPPINGS (the Category Mapper). -/
def applyMappings (r : AttributeRecord) : AttributeRecord :=
  VALUE_MAPPINGS.foldl (fun acc p => applyOneMapping acc p.1 p.2) r

/-- The value one mapping table produces for a given current value:
a known localized label is replaced by its token, anything else kept. -/
def mapResult (m : List (String × String)) (v : Value) : Value :=
  match v with
  | Value.str s =>
      match lookupStr m s with
      | some t => Value.str t
      | none => v
  | _ => v

/-- Synthesis of engineDisplacement_num, applied only when
engineDisplacement is present. -/
def synthEngine (r : AttributeRecord) : AttributeRecord :=
  match lookupVal r "engineDisplacement" with
  | some v => setVal r "engineDisplacement_num" (Value.flt (engineDisplacementNum v))
  | none => r

/-- Synthesis of modelDate as a copy of productionDate when present. -/
def synthModelDate (r : AttributeRecord) : AttributeRecord :=
  match lookupVal r "productionDate" with
  | some v => setVal r "modelDate" v
  | none => r

/-- Synthesis of the name field: "brand model" when both are truthy,
otherwise the synthetic fallback built from the displacement value. -/
def synthName (r : AttributeRecord) : AttributeRecord :=
  let brand := (lookupVal r "brand").getD (Value.str "")
  let model := (lookupVal r "model").getD (Value.str "")
  if ¬ isFalsy brand ∧ ¬ isFalsy model then
    setVal r "name" (Value.str (brand.toStr ++ " " ++ model.toStr))
  else
    setVal r "name" (Value.str ("+ " ++
      ((lookupVal r "engineDisplacement").getD (Value.flt (mkRat 8 5))).toStr ++ " AT"))

/-- Synthesis of vehicleConfiguration: body type with spaces replaced by
underscores and upper-cased, transmission, engine displacement, joined by
underscores. A non-string bodyType would raise in the source (str.replace
on a non-string) and abort preparation, hence the none branch. -/
def synthConfig (r : AttributeRecord) : Option AttributeRecord :=
  match (lookupVal r "bodyType").getD (Value.str "") with
  | Value.str bt =>
      let body := pyUpper (replaceSpaces bt)
      let trans := ((lookupVal r "vehicleTransmission").getD
          (Value.str "AUTOMATIC")).toStr
      let eng := ((lookupVal r "engineDisplacement").getD (Value.flt (mkRat 8 5))).toStr
      some (setVal r "vehicleConfiguration"
        (Value.str (body ++ "_" ++ trans ++ "_" ++ eng)))
  | _ => none

/-- The defaults table, parameterized by the brand value captured earlier;
the model default slices the brand string, which would raise on a truthy
non-string brand (the none branch aborts preparation as the source does). -/
def defaultsTable (brand : Value) : Option (List (String × Value)) :=
  let modelDefault : Option String :=
    if isFalsy brand then some "UNK"
    else match brand with
      | Value.str s => some (s.take 3)
      | _ => none
  match modelDefault with
  | none => none
  | some md => some
      [("color", Value.str "040001"),
       ("Комплектация", Value.str "\x7b\x27id\x27: \x270\x27, \x27name\x27: \x27\x27\x7d"),
       ("Владение", Value.str "\x7b\x27year\x27: 1977, \x27month\x27: 12\x7d"),
       ("model", Value.str md),
       ("description_length", Value.int 150),
       ("start_year", Value.int 2024),
       ("start_month", Value.int 1),
       ("start_day", Value.int 1)]

/-- The defaults block: add each default only when its key is absent. -/
def defaultsBlock (r : AttributeRecord) : Option AttributeRecord :=
  match defaultsTable ((lookupVal r "brand").getD (Value.str "")) with
  | none => none
  | some defs => some (defs.foldl
      (fun acc kv => if (lookupVal acc kv.1).isSome then acc else acc ++ [kv]) r)

/-- prepare_features_for_model: mapping pass, then the synthesized fields,
then the defaults block; none models the exception path returning None. -/
def prepare_features_for_model (r : AttributeRecord) : Option AttributeRecord :=
  match synthConfig (synthName (synthModelDate (synthEngine (applyMappings r)))) with
  | none => none
  | some r5 => defaultsBlock r5

/-- The encoder table: for each categorical feature, the ordered list of
known category strings (classes in the encoder's original ordering,
each category's integer code being its index in the list). -/
abbrev EncoderTable := List (String × List String)

/-- Lookup of a column's class list in the encoder table. -/
def lookupClasses : EncoderTable → String → Option (List String)
  | [], _ => none
  | (k, cs) :: rest, key => if k = key then some cs else lookupClasses rest key

/-- Encoding one string value against one class list: a known category is
encoded to its index; an unknown one is replaced by the first class and
encoded; an empty class list has no first class and aborts (IndexError). -/
def encodeWithFallback (classes : List String) (v : String) : Option Nat :=
  if v ∈ classes then List.indexOf? v classes
  else
    match classes with
    | [] => none
    | fallback :: _ => List.indexOf? fallback classes

/-- Encoding one record entry: columns without an encoder entry pass
through, columns with one are replaced by their integer code. -/
def encodeEntry (encoders : EncoderTable) (k : String) (v : Value) :
    Option (String × Value) :=
  match lookupClasses encoders k with
  | none => some (k, v)
  | some classes =>
      (encodeWithFallback classes (Value.toStr v)).map
        (fun code => (k, Value.int code))

/-- The encoding loop over all columns of the record; a failure on any
column aborts the prediction. -/
def encodeRecord (encoders : EncoderTable) : AttributeRecord → Option AttributeRecord
  | [] => some []
  | (k, v) :: rest =>
      match encodeEntry encoders k v, encodeRecord encoders rest with
      | some kv, some out => some (kv :: out)
      | _, _ => none

/-- Fill step of the assembler: every schema feature absent from the
record is appended with value 0. -/
def addMissingFeatures (r : AttributeRecord) (schema : List String) :
    AttributeRecord :=
  schema.foldl
    (fun acc c => if (lookupVal acc c).isSome then acc
                  else acc ++ [(c, Value.int 0)]) r

/-- Projection step of the assembler: select exactly the schema columns in
schema order; a missing column aborts (KeyError). -/
def reorderColumns : List String → AttributeRecord → Option AttributeRecord
  | [], _ => some []
  | c :: rest, r =>
      match lookupVal r c, reorderColumns rest r with
      | some v, some out => some ((c, v) :: out)
      | _, _ => none

/-- The Feature Vector Assembler: fill missing features with 0, then
project and reorder to the schema. -/
def assembleVector (r : AttributeRecord) (schema : List String) :
    Option AttributeRecord :=
  reorderColumns schema (addMissingFeatures r schema)

/-- Numeric coercion of the assembled vector: numbers are kept, leftover
string columns are converted with pandas to_numeric, whose failure aborts
the prediction naming the column. -/
def coerceNumericRecord : AttributeRecord → Option AttributeRecord
  | [] => some []
  | (k, v) :: rest =>
      match (match v with
             | Value.str s => (parsePyFloat s).map Value.flt
             | w => some w),
            coerceNumericRecord rest with
      | some w, some out => some ((k, w) :: out)
      | _, _ => none

/-- Python round-half-to-even of a rational to an integer. -/
def roundHalfEven (q : ℚ) : ℤ :=
  let f := ⌊q⌋
  if q - f < 1/2 then f
  else if q - f > 1/2 then f + 1
  else if f % 2 = 0 then f else f + 1

/-- Python round(x, -3): round to the nearest multiple of 1000,
ties to even. -/
def roundToThousand (q : ℚ) : ℚ := 1000 * roundHalfEven (q / 1000)

/-- The fixed mean-absolute-error constant of the confidence band. -/
def maeConstant : ℚ := 135699

/-- The confidence band around a displayed price: lower bound clamped at
0, upper bound symmetric. -/
def confidenceBounds (price : ℚ) : ℚ × ℚ :=
  (max 0 (price - maeConstant), price + maeConstant)

/-- predict_car_price with the trained LightGBM model abstracted as a
function from the final feature vector to the raw prediction: prepare,
encode, assemble, coerce, predict, round to thousands. -/
def predict_car_price (modelPredict : AttributeRecord → ℚ)
    (encoders : EncoderTable) (feature_names : List String)
    (r : AttributeRecord) : Option ℚ :=
  match prepare_features_for_model r with
  | none => none
  | some prepared =>
      match encodeRecord encoders prepared with
      | none => none
      | some encoded =>
          match assembleVector encoded feature_names with
          | none => none
          | some vec =>
              match coerceNumericRecord vec with
              | none => none
              | some final => some (roundToThousand (modelPredict final))

/-- The required fields checked by the entry point. -/
def requiredFields : List String := ["brand", "productionDate", "mileage", "enginePower"]

/-- Truthiness of a lookup result: an absent key (dict.get returning None)
is falsy, a present value is tested as a Python scalar. -/
def isFalsyOpt : Option Value → Bool
  | none => true
  | some v => isFalsy v

/-- The missing-fields list of the entry point: every required field whose
looked-up value is falsy. -/
def missingFields (r : AttributeRecord) : List String :=
  requiredFields.filter (fun f => isFalsyOpt (lookupVal r f))

/-- Outcome of the entry point's required-field gate. -/
inductive MainOutcome where
  | rejected (missing : List String)
  | predicted (result : Option ℚ)
deriving DecidableEq

/-- The entry point's gate: reject with the missing-fields list when it is
nonempty, otherwise run the prediction. -/
def mainCheck (predict : AttributeRecord → Option ℚ) (r : AttributeRecord) :
    MainOutcome :=
  if missingFields r = [] then MainOutcome.predicted (predict r)
  else MainOutcome.rejected (missingFields r)

/-- What the caller displays for a prediction result. -/
inductive DisplayOutcome where
  | success (price : ℚ)
  | failure
deriving DecidableEq

/-- The caller's branch on the prediction result: Python truthiness of an
Optional float, so None and 0.0 both take the failure branch. -/
def displayResult : Option ℚ → DisplayOutcome
  | none => DisplayOutcome.failure
  | some q => if q = 0 then DisplayOutcome.failure else DisplayOutcome.success q

/-! ### Record lemmas -/

theorem lookupVal_setVal_self (r : AttributeRecord) (k : String) (v : Value) :
    lookupVal (setVal r k v) k = some v := by
  induction r with
  | nil => simp [setVal, lookupVal]
  | cons kv rest ih =>
      obtain ⟨k0, w⟩ := kv
      by_cases h : k0 = k <;> simp [setVal, lookupVal, h, ih]

theorem lookupVal_setVal_ne (r : AttributeRecord) (k k' : String) (v : Value)
    (h : k ≠ k') : lookupVal (setVal r k' v) k = lookupVal r k := by
  induction r with
  | nil => simp [setVal, lookupVal, Ne.symm h]
  | cons kv rest ih =>
      obtain ⟨k0, w⟩ := kv
      by_cases h0 : k0 = k' <;> by_cases h1 : k0 = k <;>
        simp_all [setVal, lookupVal]

theorem lookupVal_append (r1 r2 : AttributeRecord) (k : String) :
    lookupVal (r1 ++ r2) k =
      match lookupVal r1 k with
      | some v => some v
      | none => lookupVal r2 k := by
  induction r1 with
  | nil => simp [lookupVal]
  | cons kv rest ih =>
      obtain ⟨k0, w⟩ := kv
      by_cases h : k0 = k <;> simp [lookupVal, h, ih]

/-! ### Category-mapper lemmas -/

theorem applyOneMapping_lookup_ne (r : AttributeRecord) (f : String)
    (m : List (String × String)) (k : String) (h : k ≠ f) :
    lookupVal (applyOneMapping r f m) k = lookupVal r k := by
  unfold applyOneMapping
  cases hv : lookupVal r f with
  | none => rfl
  | some v =>
      cases v with
      | str s =>
          cases ht : lookupStr m s with
          | none => simp [ht]
          | some t => simp [ht, lookupVal_setVal_ne r k f (Value.str t) h]
      | int n => simp
      | flt q => simp

theorem applyOneMapping_lookup_self (r : AttributeRecord) (f : String)
    (m : List (String × String)) (v : Value) (hv : lookupVal r f = some v) :
    lookupVal (applyOneMapping r f m) f = some (mapResult m v) := by
  unfold applyOneMapping mapResult
  rw [hv]
  cases v with
  | str s =>
      cases ht : lookupStr m s with
      | none => simpa [ht] using hv
      | some t => simp [ht, lookupVal_setVal_self r f (Value.str t)]
  | int n => simpa using hv
  | flt q => simpa using hv

/-- The mapping loop unfolded into its four iterations. -/
theorem applyMappings_unfold (r : AttributeRecord) :
    applyMappings r =
      applyOneMapping
        (applyOneMapping
          (applyOneMapping
            (applyOneMapping r "vehicleTransmission" transMap)
            "Руль" wheelMap)
          "ПТС" ptsMap)
        "color" colorMap := rfl

/-- A key outside the four mapped fields is untouched by the mapper. -/
theorem lookupVal_applyMappings_ne (r : AttributeRecord) (k : String)
    (h1 : k ≠ "vehicleTransmission") (h2 : k ≠ "Руль")
    (h3 : k ≠ "ПТС") (h4 : k ≠ "color") :
    lookupVal (applyMappings r) k = lookupVal r k := by
  rw [applyMappings_unfold,
    applyOneMapping_lookup_ne _ _ _ _ h4,
    applyOneMapping_lookup_ne _ _ _ _ h3,
    applyOneMapping_lookup_ne _ _ _ _ h2,
    applyOneMapping_lookup_ne _ _ _ _ h1]

/-! ### Defaults-block lemmas -/

theorem lookupVal_addAbsent_foldl (defs : List (String × Value))
    (r : AttributeRecord) (k : String) (v : Value)
    (h : lookupVal r k = some v) :
    lookupVal (defs.foldl
      (fun acc kv => if (lookupVal acc kv.1).isSome then acc else acc ++ [kv]) r)
      k = some v := by
  induction defs generalizing r with
  | nil => simpa using h
  | cons d rest ih =>
      simp only [List.foldl_cons]
      by_cases hp : (lookupVal r d.1).isSome
      · simpa [hp] using ih r h
      · have h2 : lookupVal (r ++ [d]) k = some v := by
          rw [lookupVal_append, h]
        simpa [hp] using ih (r ++ [d]) h2

theorem defaultsBlock_preserves (r r' : AttributeRecord) (k : String) (v : Value)
    (hd : defaultsBlock r = some r') (h : lookupVal r k = some v) :
    lookupVal r' k = some v := by
  unfold defaultsBlock at hd
  cases ht : defaultsTable ((lookupVal r "brand").getD (Value.str "")) with
  | none => rw [ht] at hd; cases hd
  | some defs =>
      rw [ht] at hd
      simp only [Option.some.injEq] at hd
      subst hd
      exact lookupVal_addAbsent_foldl defs r k v h

/-! ### Assembler lemmas -/

theorem lookupVal_addMissingFeatures (schema : List String)
    (r : AttributeRecord) (c : String) :
    lookupVal (addMissingFeatures r schema) c =
      if c ∈ schema then some ((lookupVal r c).getD (Value.int 0))
      else lookupVal r c := by
  induction schema generalizing r with
  | nil => simp [addMissingFeatures]
  | cons s rest ih =>
      have hstep : addMissingFeatures r (s :: rest) =
          addMissingFeatures
            (if (lookupVal r s).isSome then r else r ++ [(s, Value.int 0)]) rest := by
        by_cases hp : (lookupVal r s).isSome <;>
          simp [addMissingFeatures, hp]
      rw [hstep]
      by_cases hp : (lookupVal r s).isSome
      · obtain ⟨w, hw⟩ := Option.isSome_iff_exists.mp hp
        rw [if_pos hp, ih]
        by_cases hc : c ∈ rest
        · simp [hc]
        · by_cases hcs : c = s
          · subst hcs
            simp [hc, hw]
          · simp [hc, hcs]
      · have hnone : lookupVal r s = none := Option.not_isSome_iff_eq_none.mp hp
        rw [if_neg hp, ih]
        have happ : ∀ d : String, lookupVal (r ++ [(s, Value.int 0)]) d =
            match lookupVal r d with
            | some w => some w
            | none => lookupVal [(s, Value.int 0)] d := fun d =>
          lookupVal_append r [(s, Value.int 0)] d
        by_cases hc : c ∈ rest
        · rw [if_pos hc, if_pos (List.mem_cons_of_mem s hc)]
          rw [happ c]
          cases hrc : lookupVal r c with
          | some w => simp
          | none =>
              by_cases hcs : c = s
              · subst hcs
                simp [lookupVal]
              · simp [lookupVal, Ne.symm hcs]
        · rw [if_neg hc, happ c]
          by_cases hcs : c = s
          · subst hcs
            simp [hnone, lookupVal]
          · have : ¬ c ∈ s :: rest := by
              simp [hcs, hc]
            rw [if_neg this]
            cases hrc : lookupVal r c with
            | some w => simp
            | none => simp [lookupVal, Ne.symm hcs]

theorem reorderColumns_eq (schema : List String) (r : AttributeRecord)
    (h : ∀ c ∈ schema, (lookupVal r c).isSome) :
    reorderColumns schema r =
      some (schema.map (fun c => (c, (lookupVal r c).getD (Value.int 0)))) := by
  induction schema with
  | nil => simp [reorderColumns]
  | cons c rest ih =>
      obtain ⟨v, hv⟩ := Option.isSome_iff_exists.mp (h c (List.mem_cons_self c rest))
      have hrest := ih (fun d hd => h d (List.mem_cons_of_mem c hd))
      simp [reorderColumns, hv, hrest]

/-! ### Claims -/

/-- C2: for every record containing an engineDisplacement value, the
synthesizer sets engineDisplacement_num by the three-tier fallback of
engineDisplacementNum (first decimal number in the string form, then a
direct numeric conversion, then the default 2.0); in particular
"2.0 LTR" yields 2.0 and "LTR" yields exactly 2.0. -/
theorem claim_C2 (r : AttributeRecord) (v : Value)
    (h : lookupVal r "engineDisplacement" = some v) :
    lookupVal (synthEngine r) "engineDisplacement_num"
      = some (Value.flt (engineDisplacementNum v)) ∧
    engineDisplacementNum (Value.str "2.0 LTR") = 2 ∧
    engineDisplacementNum (Value.str "LTR") = 2 := by
  refine ⟨?_, ?_, ?_⟩
  · unfold synthEngine
    rw [h]
    exact lookupVal_setVal_self r "engineDisplacement_num"
      (Value.flt (engineDisplacementNum v))
  · simp +decide [engineDisplacementNum, Value.toStr, scanFirstNum, takeDigits,
      parsePyFloat, parseDecCore, digitsVal]
  · simp +decide [engineDisplacementNum, Value.toStr, scanFirstNum, takeDigits,
      parsePyFloat, parseDecCore, digitsVal]

theorem claim_C2_witness :
    lookupVal (synthEngine [("engineDisplacement", Value.str "2.0 LTR")])
      "engineDisplacement_num" = some (Value.flt 2) := by
  have h := claim_C2 [("engineDisplacement", Value.str "2.0 LTR")]
    (Value.str "2.0 LTR") (by simp [lookupVal])
  have h1 := h.1
  rw [h.2.1] at h1
  exact h1

/-- C3: for every encoder column and every value not among its known
categories, encoding never fails: the value is replaced by the first known
category of the class list and that category's integer code, 0, is used;
a record entry for such a column becomes the integer 0. -/
theorem claim_C3 (classes : List String) (c0 : String) (v : String)
    (hh : classes.head? = some c0) (hv : v ∉ classes) :
    encodeWithFallback classes v = List.indexOf? c0 classes ∧
    encodeWithFallback classes v = some 0 ∧
    (encodeWithFallback classes v).isSome = true ∧
    (∀ (encoders : EncoderTable) (k : String) (w : Value),
      lookupClasses encoders k = some classes → Value.toStr w = v →
        encodeEntry encoders k w = some (k, Value.int 0)) := by
  cases classes with
  | nil => cases hh
  | cons c rest =>
      have hc : c = c0 := by simpa using hh
      subst hc
      have henc : encodeWithFallback (c :: rest) v = some 0 := by
        unfold encodeWithFallback
        rw [if_neg hv]
        simp [List.indexOf?]
      have hidx : List.indexOf? c (c :: rest) = some 0 := by
        simp [List.indexOf?]
      refine ⟨by rw [henc, hidx], henc, by rw [henc]; rfl, ?_⟩
      intro encoders k w hk hw
      unfold encodeEntry
      rw [hk, hw]
      simp [henc]

theorem claim_C3_witness :
    encodeWithFallback ["AUTOMATIC", "MECHANICAL"] "UNKNOWN" = some 0 :=
  (claim_C3 ["AUTOMATIC", "MECHANICAL"] "AUTOMATIC" "UNKNOWN"
    (by decide) (by decide)).2.1

/-- C5: for every record and schema, the assembler yields exactly the
schema's names in the schema's order, with absent features filled with 0
and record fields outside the schema dropped. -/
theorem claim_C5 (r : AttributeRecord) (schema : List String) :
    assembleVector r schema =
      some (schema.map (fun c => (c, (lookupVal r c).getD (Value.int 0)))) ∧
    (schema.map (fun c => (c, (lookupVal r c).getD (Value.int 0)))).map Prod.fst
      = schema := by
  constructor
  · unfold assembleVector
    have hall : ∀ c ∈ schema, (lookupVal (addMissingFeatures r schema) c).isSome := by
      intro c hc
      rw [lookupVal_addMissingFeatures, if_pos hc]
      rfl
    rw [reorderColumns_eq schema _ hall]
    congr 1
    apply List.map_congr_left
    intro c hc
    rw [lookupVal_addMissingFeatures, if_pos hc]
    simp
  · simp [Function.comp_def]

/-- C7: the defaults block never overwrites: every defaulted key already
present in the record keeps its value. -/
theorem claim_C7 (r r' : AttributeRecord) (k : String) (v : Value)
    (_hk : k ∈ ["color", "Комплектация", "Владение", "model",
               "description_length", "start_year", "start_month", "start_day"])
    (hp : lookupVal r k = some v) (hd : defaultsBlock r = some r') :
    lookupVal r' k = some v :=
  defaultsBlock_preserves r r' k v hd hp

theorem claim_C7_witness :
    lookupVal
      [("color", Value.str "FF0000"),
       ("Комплектация", Value.str "\x7b\x27id\x27: \x270\x27, \x27name\x27: \x27\x27\x7d"),
       ("Владение", Value.str "\x7b\x27year\x27: 1977, \x27month\x27: 12\x7d"),
       ("model", Value.str "UNK"),
       ("description_length", Value.int 150),
       ("start_year", Value.int 2024),
       ("start_month", Value.int 1),
       ("start_day", Value.int 1)] "color" = some (Value.str "FF0000") :=
  claim_C7 [("color", Value.str "FF0000")] _ "color" (Value.str "FF0000")
    (by decide) (by decide) (by decide)

/-- A predictor that always fails, used to instantiate the abstract model. -/
def nullModel : AttributeRecord → Option ℚ := fun _ => none

/-- C6: a request missing a required field, or carrying an empty value for
one, is rejected before any prediction runs, and the rejection lists every
required field whose value is missing or falsy. -/
theorem claim_C6 (predict : AttributeRecord → Option ℚ) (r : AttributeRecord)
    (f : String) (hf : f ∈ requiredFields)
    (h : lookupVal r f = none ∨ lookupVal r f = some (Value.str "")) :
    f ∈ missingFields r ∧
    mainCheck predict r = MainOutcome.rejected (missingFields r) ∧
    (∀ g ∈ requiredFields, isFalsyOpt (lookupVal r g) = true → g ∈ missingFields r) := by
  have hfalsy : isFalsyOpt (lookupVal r f) = true := by
    rcases h with h | h <;> rw [h] <;> rfl
  have hmem : f ∈ missingFields r := by
    unfold missingFields
    exact List.mem_filter.mpr ⟨hf, hfalsy⟩
  refine ⟨hmem, ?_, ?_⟩
  · unfold mainCheck
    rw [if_neg (by intro h0; rw [h0] at hmem; cases hmem)]
  · intro g hg hgf
    unfold missingFields
    exact List.mem_filter.mpr ⟨hg, hgf⟩

theorem claim_C6_witness :
    "brand" ∈ missingFields [] ∧
    mainCheck nullModel [] = MainOutcome.rejected (missingFields []) :=
  ⟨(claim_C6 nullModel [] "brand" (by decide) (Or.inl rfl)).1,
   (claim_C6 nullModel [] "brand" (by decide) (Or.inl rfl)).2.1⟩

/-- C9: the required-field check tests truthiness, not key presence: a
required field present with a falsy value is reported as missing and the
request is rejected. -/
theorem claim_C9 (predict : AttributeRecord → Option ℚ) (r : AttributeRecord)
    (f : String) (v : Value) (hf : f ∈ requiredFields)
    (hp : lookupVal r f = some v) (hfalsy : isFalsy v = true) :
    f ∈ missingFields r ∧
    mainCheck predict r = MainOutcome.rejected (missingFields r) := by
  have hmem : f ∈ missingFields r := by
    unfold missingFields
    refine List.mem_filter.mpr ⟨hf, ?_⟩
    rw [hp]
    exact hfalsy
  refine ⟨hmem, ?_⟩
  unfold mainCheck
  rw [if_neg (by intro h0; rw [h0] at hmem; cases hmem)]

theorem claim_C9_witness :
    "mileage" ∈ missingFields
      [("brand", Value.str "BMW"), ("productionDate", Value.int 2018),
       ("mileage", Value.int 0), ("enginePower", Value.int 150)] ∧
    mainCheck nullModel
      [("brand", Value.str "BMW"), ("productionDate", Value.int 2018),
       ("mileage", Value.int 0), ("enginePower", Value.int 150)]
      = MainOutcome.rejected (missingFields
          [("brand", Value.str "BMW"), ("productionDate", Value.int 2018),
           ("mileage", Value.int 0), ("enginePower", Value.int 150)]) :=
  claim_C9 nullModel _ "mileage" (Value.int 0) (by decide) (by decide) (by decide)

/-- C10: the caller branches on Python truthiness of the prediction result,
so a None result and a rounded price of exactly 0 both display the failure
message, and a price of 0 is never displayed as a success. -/
theorem claim_C10 (p : Option ℚ) :
    ((p = none ∨ p = some 0) → displayResult p = DisplayOutcome.failure) ∧
    (∀ q : ℚ, displayResult p = DisplayOutcome.success q → q ≠ 0) := by
  constructor
  · rintro (h | h) <;> subst h
    · rfl
    · simp [displayResult]
  · intro q hq
    cases p with
    | none => cases hq
    | some q0 =>
        simp only [displayResult] at hq
        by_cases h0 : q0 = 0
        · rw [if_pos h0] at hq
          cases hq
        · rw [if_neg h0] at hq
          cases hq
          exact h0

theorem claim_C10_witness :
    displayResult (some 0) = DisplayOutcome.failure ∧
    displayResult none = DisplayOutcome.failure :=
  ⟨(claim_C10 (some 0)).1 (Or.inr rfl), (claim_C10 none).1 (Or.inl rfl)⟩

/-- C8: for every feature with a mapping table, a known localized label is
replaced by its canonical token and any other value passes through
unchanged; features without a table are never modified by the mapper. -/
theorem claim_C8 (r : AttributeRecord) (f : String) :
    (∀ (m : List (String × String)) (v : Value),
      (f, m) ∈ VALUE_MAPPINGS → lookupVal r f = some v →
        lookupVal (applyMappings r) f = some (mapResult m v)) ∧
    (f ∉ VALUE_MAPPINGS.map Prod.fst →
        lookupVal (applyMappings r) f = lookupVal r f) := by
  constructor
  · intro m v hm hv
    simp only [VALUE_MAPPINGS, List.mem_cons, List.not_mem_nil, or_false,
      Prod.mk.injEq] at hm
    rw [applyMappings_unfold]
    rcases hm with ⟨hf, hm⟩ | ⟨hf, hm⟩ | ⟨hf, hm⟩ | ⟨hf, hm⟩ <;> subst hf <;> subst hm
    · rw [applyOneMapping_lookup_ne _ _ _ _ (by decide),
        applyOneMapping_lookup_ne _ _ _ _ (by decide),
        applyOneMapping_lookup_ne _ _ _ _ (by decide)]
      exact applyOneMapping_lookup_self r _ transMap v hv
    · rw [applyOneMapping_lookup_ne _ _ _ _ (by decide),
        applyOneMapping_lookup_ne _ _ _ _ (by decide)]
      exact applyOneMapping_lookup_self _ _ wheelMap v
        (by rw [applyOneMapping_lookup_ne _ _ _ _ (by decide)]; exact hv)
    · rw [applyOneMapping_lookup_ne _ _ _ _ (by decide)]
      exact applyOneMapping_lookup_self _ _ ptsMap v
        (by rw [applyOneMapping_lookup_ne _ _ _ _ (by decide),
              applyOneMapping_lookup_ne _ _ _ _ (by decide)]; exact hv)
    · exact applyOneMapping_lookup_self _ _ colorMap v
        (by rw [applyOneMapping_lookup_ne _ _ _ _ (by decide),
              applyOneMapping_lookup_ne _ _ _ _ (by decide),
              applyOneMapping_lookup_ne _ _ _ _ (by decide)]; exact hv)
  · intro hf
    simp only [VALUE_MAPPINGS, List.map_cons, List.map_nil, List.mem_cons,
      List.not_mem_nil, or_false, not_or] at hf
    obtain ⟨h1, h2, h3, h4⟩ := hf
    exact lookupVal_applyMappings_ne r f h1 h2 h3 h4

theorem claim_C8_witness :
    lookupVal (applyMappings [("vehicleTransmission", Value.str "автоматическая")])
      "vehicleTransmission" = some (Value.str "AUTOMATIC") := by
  have h := (claim_C8 [("vehicleTransmission", Value.str "автоматическая")]
    "vehicleTransmission").1 transMap (Value.str "автоматическая")
    (by decide) (by decide)
  rw [show mapResult transMap (Value.str "автоматическая")
      = Value.str "AUTOMATIC" from by decide] at h
  exact h

/-- C4: every successful prediction returns the raw model output of the
assembled feature vector rounded to the nearest multiple of 1000, and the
confidence band is lower = max(0, price − 135699), upper = price + 135699. -/
theorem claim_C4 (modelPredict : AttributeRecord → ℚ) (encoders : EncoderTable)
    (feature_names : List String) (r : AttributeRecord) (p : ℚ)
    (h : predict_car_price modelPredict encoders feature_names r = some p) :
    (∃ prepared encoded vec final : AttributeRecord,
      prepare_features_for_model r = some prepared ∧
      encodeRecord encoders prepared = some encoded ∧
      assembleVector encoded feature_names = some vec ∧
      coerceNumericRecord vec = some final ∧
      p = roundToThousand (modelPredict final)) ∧
    (∃ k : ℤ, p = 1000 * (k : ℚ)) ∧
    confidenceBounds p = (max 0 (p - 135699), p + 135699) := by
  unfold predict_car_price at h
  split at h
  · cases h
  rename_i prepared h1
  split at h
  · cases h
  rename_i encoded h2
  split at h
  · cases h
  rename_i vec h3
  split at h
  · cases h
  rename_i final h4
  simp only [Option.some.injEq] at h
  subst h
  exact ⟨⟨prepared, encoded, vec, final, h1, h2, h3, h4, rfl⟩,
    ⟨roundHalfEven (modelPredict final / 1000), rfl⟩, rfl⟩

theorem claim_C4_witness :
    confidenceBounds (roundToThousand 2500)
      = (max 0 (roundToThousand 2500 - 135699), roundToThousand 2500 + 135699) :=
  (claim_C4 (fun _ => 2500) [] [] [] (roundToThousand 2500) (by rfl)).2.2

/-- The input of claim C1: body type Седан, transmission token AUTOMATIC,
engine displacement 2.0. -/
def c1Record : AttributeRecord :=
  [("bodyType", Value.str "Седан"),
   ("vehicleTransmission", Value.str "AUTOMATIC"),
   ("engineDisplacement", Value.flt 2)]

/-- C1 as stated is false: Python str.upper() uppercases Cyrillic in place,
so the synthesized configuration is "СЕДАН_AUTOMATIC_2.0" (body type kept
in Cyrillic), not the transliterated "SEDAN_AUTOMATIC_2.0". -/
theorem claim_C1_counterexample :
    ((prepare_features_for_model c1Record).bind
        (fun p => lookupVal p "vehicleConfiguration"))
      = some (Value.str "СЕДАН_AUTOMATIC_2.0") ∧
    ((prepare_features_for_model c1Record).bind
        (fun p => lookupVal p "vehicleConfiguration"))
      ≠ some (Value.str "SEDAN_AUTOMATIC_2.0") := by
  constructor
  · rfl
  · intro h
    rw [show ((prepare_features_for_model c1Record).bind
        (fun p => lookupVal p "vehicleConfiguration"))
      = some (Value.str "СЕДАН_AUTOMATIC_2.0") from rfl] at h
    simp at h

/-- engineDisplacement synthesis touches only engineDisplacement_num. -/
theorem lookupVal_synthEngine_ne (r : AttributeRecord) (k : String)
    (h : k ≠ "engineDisplacement_num") :
    lookupVal (synthEngine r) k = lookupVal r k := by
  unfold synthEngine
  cases hv : lookupVal r "engineDisplacement" with
  | none => rfl
  | some v => simp [lookupVal_setVal_ne r k _ _ h]

/-- modelDate synthesis touches only modelDate. -/
theorem lookupVal_synthModelDate_ne (r : AttributeRecord) (k : String)
    (h : k ≠ "modelDate") :
    lookupVal (synthModelDate r) k = lookupVal r k := by
  unfold synthModelDate
  cases hv : lookupVal r "productionDate" with
  | none => rfl
  | some v => simp [lookupVal_setVal_ne r k _ _ h]

/-- name synthesis touches only name. -/
theorem lookupVal_synthName_ne (r : AttributeRecord) (k : String)
    (h : k ≠ "name") :
    lookupVal (synthName r) k = lookupVal r k := by
  unfold synthName
  dsimp only
  split <;> exact lookupVal_setVal_ne r k "name" _ h

/-- C1 (amended): for an AttributeRecord with bodyType "Седан",
transmission token "AUTOMATIC" and engineDisplacement 2.0, the synthesized
vehicleConfiguration is the literal underscore join of the normalized
components — body type with spaces replaced by underscores and upper-cased
(Unicode uppercasing, so the Cyrillic label stays Cyrillic), the
transmission token, and the engine displacement — i.e.
"СЕДАН_AUTOMATIC_2.0". -/
theorem claim_C1_theorem (r p : AttributeRecord)
    (hb : lookupVal r "bodyType" = some (Value.str "Седан"))
    (ht : lookupVal r "vehicleTransmission" = some (Value.str "AUTOMATIC"))
    (he : lookupVal r "engineDisplacement" = some (Value.flt 2))
    (hp : prepare_features_for_model r = some p) :
    lookupVal p "vehicleConfiguration"
      = some (Value.str (pyUpper (replaceSpaces "Седан") ++ "_" ++
          Value.toStr (Value.str "AUTOMATIC") ++ "_" ++
          Value.toStr (Value.flt 2))) ∧
    lookupVal p "vehicleConfiguration" = some (Value.str "СЕДАН_AUTOMATIC_2.0") := by
  have hb1 : lookupVal (applyMappings r) "bodyType" = some (Value.str "Седан") := by
    rw [lookupVal_applyMappings_ne r _ (by decide) (by decide) (by decide) (by decide)]
    exact hb
  have ht1 : lookupVal (applyMappings r) "vehicleTransmission"
      = some (Value.str "AUTOMATIC") := by
    rw [applyMappings_unfold,
      applyOneMapping_lookup_ne _ _ _ _ (by decide),
      applyOneMapping_lookup_ne _ _ _ _ (by decide),
      applyOneMapping_lookup_ne _ _ _ _ (by decide),
      applyOneMapping_lookup_self r _ transMap _ ht]
    decide
  have he1 : lookupVal (applyMappings r) "engineDisplacement"
      = some (Value.flt 2) := by
    rw [lookupVal_applyMappings_ne r _ (by decide) (by decide) (by decide) (by decide)]
    exact he
  set r2 := synthEngine (applyMappings r) with hr2
  have hb2 : lookupVal r2 "bodyType" = some (Value.str "Седан") := by
    rw [hr2, lookupVal_synthEngine_ne _ _ (by decide)]; exact hb1
  have ht2 : lookupVal r2 "vehicleTransmission" = some (Value.str "AUTOMATIC") := by
    rw [hr2, lookupVal_synthEngine_ne _ _ (by decide)]; exact ht1
  have he2 : lookupVal r2 "engineDisplacement" = some (Value.flt 2) := by
    rw [hr2, lookupVal_synthEngine_ne _ _ (by decide)]; exact he1
  set r3 := synthModelDate r2 with hr3
  have hb3 : lookupVal r3 "bodyType" = some (Value.str "Седан") := by
    rw [hr3, lookupVal_synthModelDate_ne _ _ (by decide)]; exact hb2
  have ht3 : lookupVal r3 "vehicleTransmission" = some (Value.str "AUTOMATIC") := by
    rw [hr3, lookupVal_synthModelDate_ne _ _ (by decide)]; exact ht2
  have he3 : lookupVal r3 "engineDisplacement" = some (Value.flt 2) := by
    rw [hr3, lookupVal_synthModelDate_ne _ _ (by decide)]; exact he2
  set r4 := synthName r3 with hr4
  have hb4 : lookupVal r4 "bodyType" = some (Value.str "Седан") := by
    rw [hr4, lookupVal_synthName_ne _ _ (by decide)]; exact hb3
  have ht4 : lookupVal r4 "vehicleTransmission" = some (Value.str "AUTOMATIC") := by
    rw [hr4, lookupVal_synthName_ne _ _ (by decide)]; exact ht3
  have he4 : lookupVal r4 "engineDisplacement" = some (Value.flt 2) := by
    rw [hr4, lookupVal_synthName_ne _ _ (by decide)]; exact he3
  have hcfg : synthConfig r4 = some (setVal r4 "vehicleConfiguration"
      (Value.str (pyUpper (replaceSpaces "Седан") ++ "_" ++
        Value.toStr (Value.str "AUTOMATIC") ++ "_" ++ Value.toStr (Value.flt 2)))) := by
    unfold synthConfig
    rw [hb4, ht4, he4]
    rfl
  unfold prepare_features_for_model at hp
  rw [hcfg] at hp
  simp only [] at hp
  have hlook : lookupVal p "vehicleConfiguration"
      = some (Value.str (pyUpper (replaceSpaces "Седан") ++ "_" ++
          Value.toStr (Value.str "AUTOMATIC") ++ "_" ++ Value.toStr (Value.flt 2))) :=
    defaultsBlock_preserves _ p _ _ hp
      (lookupVal_setVal_self r4 "vehicleConfiguration" _)
  refine ⟨hlook, ?_⟩
  rw [hlook]
  decide

theorem claim_C1_witness :
    lookupVal ((prepare_features_for_model c1Record).getD []) "vehicleConfiguration"
      = some (Value.str "СЕДАН_AUTOMATIC_2.0") :=
  (claim_C1_theorem c1Record ((prepare_features_for_model c1Record).getD [])
    (by rfl) (by rfl) (by rfl) (by rfl)).2
